import Mathlib

/-!
Verification of the Sanbot AWS backend (LiveKit voice agent) against its
natural-language specification.

The development shallowly embeds the three source modules:

* `src/agent/crm_functions.py` — token cache, resilient CRM request layer and
  the three CRM gateway operations (`save_lead`, `find_packages`,
  `get_package_details`).  Python dynamic values are modelled by `JVal`,
  Python exceptions by `Except PyErr`, and the HTTP side effects of a call by
  an explicit `Effect` list driven by an `HttpOutcome` oracle.
* `src/agent/heygen_byoli.py` — the `HeyGenAudioTap` segment state machine,
  its background `_send_loop`, and the `HeyGenBYOLISession.stop` lifecycle.
* the `_login` single-flight protocol, modelled as a small-step interleaving
  semantics over the module-global token state (the source runs on one
  cooperative asyncio event loop, so steps are the atomic blocks between
  `await` points).

Numbers are modelled as unbounded integers (Python ints); wall-clock time is
an abstract `Nat` supplied at each step.
-/

/-! ## Python value model

`JVal` models the dynamically typed Python/JSON values flowing through
`crm_functions.py`: `None`, booleans, integers, strings, lists and dicts.
-/

inductive JVal where
  | null
  | bool (b : Bool)
  | num (n : Int)
  | str (s : String)
  | arr (xs : List JVal)
  | obj (fields : List (String × JVal))

/-- Python exceptions that the embedded code can raise. -/
inductive PyErr where
  | attributeError (msg : String)
  | typeError (msg : String)
deriving DecidableEq

/-- Python type name of a value, as it appears in error messages. -/
def dictTypeName : JVal → String
  | .null => "NoneType"
  | .bool _ => "bool"
  | .num _ => "int"
  | .str _ => "str"
  | .arr _ => "list"
  | .obj _ => "dict"

/-- Tests whether a value is Python `None`. -/
def jIsNull : JVal → Bool
  | .null => true
  | _ => false

/-- Python truthiness of a value. -/
def pyTruthy : JVal → Bool
  | .null => false
  | .bool b => b
  | .num n => n != 0
  | .str s => s ≠ ""
  | .arr xs => !xs.isEmpty
  | .obj fs => !fs.isEmpty

/-- Python `a or b` (value-returning, short-circuit). -/
def pyOr (a b : JVal) : JVal :=
  if pyTruthy a then a else b

/-- First-match association lookup, modelling Python dict access
(constructed dicts have unique keys). -/
def lookupField : List (String × JVal) → String → Option JVal
  | [], _ => none
  | (k', v) :: rest, k => if k' = k then some v else lookupField rest k

/-- Python `params.get(k)` on a dict given as an association list. -/
def pGet (p : List (String × JVal)) (k : String) : JVal :=
  (lookupField p k).getD .null

/-- Python `params.get(k, d)` on a dict given as an association list. -/
def pGetD (p : List (String × JVal)) (k : String) (d : JVal) : JVal :=
  (lookupField p k).getD d

/-- Python `v.get(k, d)` on an arbitrary value: raises `AttributeError`
when `v` is not a dict. -/
def jGetD (v : JVal) (k : String) (d : JVal) : Except PyErr JVal :=
  match v with
  | .obj fields => .ok ((lookupField fields k).getD d)
  | _ => .error (.attributeError ("'" ++ dictTypeName v ++ "' object has no attribute 'get'"))

/-- Python `v.get(k)` (default `None`). -/
def jGet (v : JVal) (k : String) : Except PyErr JVal :=
  jGetD v k .null

/-- Python `repr` of a value (string escaping inside `repr` of a string is
elided: the embedded code only ever formats scalar values in messages). -/
def pyRepr : JVal → String
  | .null => "None"
  | .bool b => if b then "True" else "False"
  | .num n => toString n
  | .str s => "'" ++ s ++ "'"
  | .arr xs => "[" ++ String.intercalate ", " (xs.attach.map (fun x => pyRepr x.1)) ++ "]"
  | .obj fs =>
    "\x7b" ++
      String.intercalate ", " (fs.attach.map (fun kv => "'" ++ kv.1.1 ++ "': " ++ pyRepr kv.1.2))
      ++ "\x7d"
decreasing_by
  · have := List.sizeOf_lt_of_mem x.2
    simp only [JVal.arr.sizeOf_spec]
    omega
  · have h1 := List.sizeOf_lt_of_mem kv.2
    have h2 : sizeOf kv.1.2 < sizeOf kv.1 := by
      obtain ⟨a, b⟩ := kv.1
      simp
    simp only [JVal.obj.sizeOf_spec]
    omega

/-- Python `str(v)`, as used by f-string interpolation and `urlencode`. -/
def formatVal : JVal → String
  | .null => "None"
  | .bool b => if b then "True" else "False"
  | .num n => toString n
  | .str s => s
  | .arr xs => pyRepr (.arr xs)
  | .obj fs => pyRepr (.obj fs)

/-- Views a value as a Python int where `+`/`-` accept it
(ints, and bools which are ints in Python). -/
def asIntQ : JVal → Option Int
  | .num n => some n
  | .bool b => some (if b then 1 else 0)
  | _ => none

/-- Python `a + b` for the shapes used by the source: int-like addition,
string concatenation; anything else raises `TypeError`. -/
def pyAdd (a b : JVal) : Except PyErr JVal :=
  match asIntQ a, asIntQ b with
  | some x, some y => .ok (.num (x + y))
  | _, _ =>
    match a, b with
    | .str x, .str y => .ok (.str (x ++ y))
    | _, _ =>
      .error (.typeError ("unsupported operand type(s) for +: '" ++ dictTypeName a ++
        "' and '" ++ dictTypeName b ++ "'"))

/-- Python `len(v)`. -/
def pyLen : JVal → Except PyErr Int
  | .str s => .ok s.length
  | .arr xs => .ok xs.length
  | .obj fs => .ok fs.length
  | v => .error (.typeError ("object of type '" ++ dictTypeName v ++ "' has no len()"))

/-- Python `v[:4]` (used for `inclusions[:4]`). -/
def pyTakeFour : JVal → Except PyErr JVal
  | .str s => .ok (.str ⟨s.data.take 4⟩)
  | .arr xs => .ok (.arr (xs.take 4))
  | v => .error (.typeError ("'" ++ dictTypeName v ++ "' object is not subscriptable"))

/-- Joins a list of values that must all be strings (helper for `pyJoin`). -/
def joinStrs (sep : String) : List JVal → Except PyErr (List String)
  | [] => .ok []
  | .str s :: rest => do
    let r ← joinStrs sep rest
    pure (s :: r)
  | v :: _ =>
    .error (.typeError ("sequence item: expected str instance, " ++ dictTypeName v ++ " found"))

/-- Python `sep.join(v)`: joins a list of strings, or the characters of a
string; anything else raises `TypeError`. -/
def pyJoin (sep : String) : JVal → Except PyErr String
  | .arr xs => do
    let parts ← joinStrs sep xs
    pure (String.intercalate sep parts)
  | .str s => .ok (String.intercalate sep (s.data.map (fun c => String.singleton c)))
  | v => .error (.typeError ("can only join an iterable, not " ++ dictTypeName v))

/-! ## String helpers (Python `x in s`, `s.lower()`, `s.strip()`) -/

/-- Tests whether `pat` is a prefix of `l` (character lists). -/
def subAt : List Char → List Char → Bool
  | [], _ => true
  | _ :: _, [] => false
  | a :: as, b :: bs => a == b && subAt as bs

/-- Tests whether `pat` occurs contiguously inside `l`. -/
def hasSub (pat : List Char) : List Char → Bool
  | [] => pat.isEmpty
  | l@(_ :: rest) => subAt pat l || hasSub pat rest

/-- Python `pat in s` for strings (substring containment). -/
def strHas (s pat : String) : Bool :=
  hasSub pat.data s.data

/-- Python `s.lower()` (ASCII case folding, all inputs in the source are ASCII). -/
def pyLower (s : String) : String :=
  ⟨s.data.map Char.toLower⟩

/-- Python `s.strip()` (whitespace from both ends). -/
def pyStrip (s : String) : String :=
  ⟨(s.data.dropWhile Char.isWhitespace).reverse.dropWhile Char.isWhitespace |>.reverse⟩

/-! ## Token state and the resilient CRM request layer

Embeds the module globals `_access_token` / `_token_expires_at`, the helpers
`_has_valid_token` / `_auth_headers`, and `_crm_request` of
`crm_functions.py`.  The network is an `HttpOutcome` oracle; the side effects
actually performed by a call are returned as an explicit `Effect` list.
-/

def TOKEN_LIFETIME_SECONDS : Nat := 50 * 60

/-- The module-global token cache: `_access_token` and `_token_expires_at`. -/
structure TokenState where
  accessToken : Option String
  tokenExpiresAt : Nat
deriving DecidableEq

/-- Embeds `_has_valid_token`: `_access_token is not None and time.time() < _token_expires_at`. -/
def hasValidToken (st : TokenState) (now : Nat) : Bool :=
  st.accessToken.isSome && decide (now < st.tokenExpiresAt)

def CRM_BASE_URL : String := "https://crm.tripandevent.com/api"

/-- Python `s.rstrip("/")`. -/
def rstripSlashes (s : String) : String :=
  ⟨(s.data.reverse.dropWhile (· == '/')).reverse⟩

/-- Python `s.lstrip("/")`. -/
def lstripSlashes (s : String) : String :=
  ⟨s.data.dropWhile (· == '/')⟩

/-- Embeds `_url`: full CRM URL from an endpoint path. -/
def crmUrl (path : String) : String :=
  rstripSlashes CRM_BASE_URL ++ "/" ++ lstripSlashes path

/-- An outbound HTTP request as issued by `_crm_request`. -/
structure HttpRequest where
  url : String
  method : String
  headers : List (String × String)
  body : Option JVal

/-- Observable side effects of the CRM layer: an HTTP request through the
shared client, or a login attempt (`_login`).  The theorems below show the
runtime tool-call path never produces `loginAttempt`. -/
inductive Effect where
  | netRequest (req : HttpRequest)
  | loginAttempt

/-- Result of `response.json()`: parsed JSON, or a parse error (raised and
then caught by `_crm_request`'s generic handler). -/
inductive JsonBody where
  | ok (j : JVal)
  | invalid (msg : String)

/-- The possible outcomes of one HTTP round trip: timeout
(`httpx.TimeoutException`), any other raised exception (connection errors,
protocol errors), or a response with a status code and body. -/
inductive HttpOutcome where
  | timeout
  | exc (msg : String)
  | response (status : Nat) (body : JsonBody)

/-- Embeds `_auth_headers`: bearer header from the cached token only;
a missing (or falsy) token yields headers without authorization. -/
def authHeaders : Option String → List (String × String)
  | none => [("Content-Type", "application/json")]
  | some t =>
    if t = "" then [("Content-Type", "application/json")]
    else [("Content-Type", "application/json"), ("Authorization", "Bearer " ++ t)]

/-- The structured failure `_crm_request` returns when no token is cached. -/
def notAuthResult : JVal :=
  .obj [("success", .bool false), ("error", .str "CRM not authenticated (token missing)")]

/-- Embeds `_crm_request`: uses the cached token only — never triggers login.
Returns the result dict (or the parsed response body) together with the list
of network effects performed.  Note the function never reads
`tokenExpiresAt`: only a missing/empty `accessToken` short-circuits. -/
def crmRequest (st : TokenState) (endpoint method : String) (body : Option JVal)
    (outcome : HttpOutcome) : JVal × List Effect :=
  match st.accessToken with
  | none => (notAuthResult, [])
  | some t =>
    if t = "" then (notAuthResult, [])
    else
      let req : HttpRequest := ⟨crmUrl endpoint, method, authHeaders (some t), body⟩
      let effs := [Effect.netRequest req]
      match outcome with
      | .timeout =>
        (.obj [("success", .bool false),
               ("error", .str "CRM request timed out — server may be unreachable")], effs)
      | .exc msg =>
        (.obj [("success", .bool false), ("error", .str msg)], effs)
      | .response status jb =>
        if status = 401 then
          (.obj [("success", .bool false),
                 ("error", .str "CRM token expired — restart agent to refresh")], effs)
        else if 400 ≤ status then
          (.obj [("success", .bool false),
                 ("error", .str ("API error: " ++ toString status))], effs)
        else
          match jb with
          | .invalid msg => (.obj [("success", .bool false), ("error", .str msg)], effs)
          | .ok j => (j, effs)

/-- Embeds the effect signature of `_ensure_authenticated` (the warmup path):
it performs a `_login` attempt exactly when no valid token is cached.  This is
the only place in the embedding that emits `Effect.loginAttempt`. -/
def ensureAuthenticatedEffects (st : TokenState) (now : Nat) : List Effect :=
  if hasValidToken st now then [] else [Effect.loginAttempt]

/-! ## Hotel-type and meal-plan normalization (`_normalize_hotel_type`, `_normalize_meal_plan`) -/

/-- Embeds `_normalize_hotel_type`: case-insensitive substring matching over a
fixed rule table; the empty string maps to `None`; unmatched input is passed
through verbatim. -/
def normalizeHotelType (s : String) : Option String :=
  if s = "" then none
  else
    let lower := pyStrip (pyLower s)
    if strHas lower "5" || strHas lower "five" || strHas lower "luxury" then some "5 Star"
    else if strHas lower "4" || strHas lower "four" || strHas lower "premium" then some "4 Star"
    else if strHas lower "3" || strHas lower "three" || strHas lower "standard" then some "3 Star"
    else if strHas lower "2" || strHas lower "two" || strHas lower "budget" then some "2 Star"
    else if strHas lower "resort" then some "Resort"
    else if strHas lower "villa" then some "Villa"
    else if strHas lower "home" || strHas lower "stay" then some "Homestay"
    else some s

/-- Embeds `_normalize_meal_plan`. -/
def normalizeMealPlan (s : String) : Option String :=
  if s = "" then none
  else
    let lower := pyStrip (pyLower s)
    if strHas lower "all" || lower = "ap" then some "AP"
    else if strHas lower "half" || strHas lower "modified" || lower = "map" then some "MAP"
    else if strHas lower "breakfast" || strHas lower "continental" || lower = "cp" then some "CP"
    else if strHas lower "no" || strHas lower "european" || strHas lower "room only" || lower = "ep" then
      some "EP"
    else some s

/-- The disjunction of all hotel-type rules, in source order (used to state
the pass-through property). -/
def hotelRuleHit (lower : String) : Bool :=
  strHas lower "5" || strHas lower "five" || strHas lower "luxury" ||
  strHas lower "4" || strHas lower "four" || strHas lower "premium" ||
  strHas lower "3" || strHas lower "three" || strHas lower "standard" ||
  strHas lower "2" || strHas lower "two" || strHas lower "budget" ||
  strHas lower "resort" || strHas lower "villa" ||
  strHas lower "home" || strHas lower "stay"

/-- The disjunction of all meal-plan rules, in source order. -/
def mealRuleHit (lower : String) : Bool :=
  strHas lower "all" || lower = "ap" ||
  strHas lower "half" || strHas lower "modified" || lower = "map" ||
  strHas lower "breakfast" || strHas lower "continental" || lower = "cp" ||
  strHas lower "no" || strHas lower "european" || strHas lower "room only" || lower = "ep"

/-- Applies `_normalize_hotel_type` to a dynamic value: a falsy argument
(`if not s`) yields `None`, a truthy non-string raises `AttributeError`
at `s.lower()`. -/
def normalizeHotelTypeV (v : JVal) : Except PyErr (Option String) :=
  if pyTruthy v then
    match v with
    | .str s => .ok (normalizeHotelType s)
    | _ => .error (.attributeError ("'" ++ dictTypeName v ++ "' object has no attribute 'lower'"))
  else .ok none

/-- Applies `_normalize_meal_plan` to a dynamic value. -/
def normalizeMealPlanV (v : JVal) : Except PyErr (Option String) :=
  if pyTruthy v then
    match v with
    | .str s => .ok (normalizeMealPlan s)
    | _ => .error (.attributeError ("'" ++ dictTypeName v ++ "' object has no attribute 'lower'"))
  else .ok none

/-- Converts an optional string back to a dynamic value (`None` / `str`). -/
def optStrToJVal : Option String → JVal
  | none => .null
  | some s => .str s

/-! ## `urlencode` (Python `urllib.parse.urlencode` with `quote_plus`) -/

/-- UTF-8 bytes of a character. -/
def utf8Bytes (c : Char) : List Nat :=
  let n := c.toNat
  if n < 0x80 then [n]
  else if n < 0x800 then [0xC0 + n / 64, 0x80 + n % 64]
  else if n < 0x10000 then [0xE0 + n / 4096, 0x80 + (n / 64) % 64, 0x80 + n % 64]
  else [0xF0 + n / 262144, 0x80 + (n / 4096) % 64, 0x80 + (n / 64) % 64, 0x80 + n % 64]

/-- Uppercase hexadecimal digit. -/
def hexDigit (n : Nat) : Char :=
  if n < 10 then Char.ofNat (48 + n) else Char.ofNat (55 + n)

/-- `quote_plus` on one character: unreserved characters pass, space becomes
`+`, everything else is percent-encoded per UTF-8 byte. -/
def quotePlusChar (c : Char) : String :=
  if c = ' ' then "+"
  else if c.isAlphanum || c = '_' || c = '.' || c = '-' || c = '~' then String.singleton c
  else String.mk ((utf8Bytes c).flatMap (fun b => ['%', hexDigit (b / 16), hexDigit (b % 16)]))

/-- Python `quote_plus`. -/
def quotePlus (s : String) : String :=
  String.join (s.data.map quotePlusChar)

/-- Python `urlencode` over an ordered parameter list. -/
def urlencodeParams (qps : List (String × String)) : String :=
  String.intercalate "&" (qps.map (fun kv => quotePlus kv.1 ++ "=" ++ quotePlus kv.2))

/-! ## `save_lead` -/

/-- Builds the lead payload of `save_lead` (the `lead_data` dict after the
`None`-filtering comprehension).  Raises exactly where the Python does:
`(nights or 0) + 1` on a truthy non-int `nights`, `.lower()` on truthy
non-string hotel/meal fields. -/
def buildLeadData (params : List (String × JVal)) : Except PyErr JVal := do
  let nights := pGet params "nights"
  let durationDays ←
    if pyTruthy nights then pyAdd (pyOr nights (.num 0)) (.num 1)
    else pure JVal.null
  let hotel ← normalizeHotelTypeV (pGetD params "hotel_type" (.str ""))
  let meal ← normalizeMealPlanV (pGetD params "meal_plan" (.str ""))
  let fields : List (String × JVal) :=
    [("name", pGetD params "name" (.str "")),
     ("email", pyOr (pGet params "email") .null),
     ("mobile", pyOr (pGet params "phone") .null),
     ("destination", pyOr (pGet params "destination") .null),
     ("journeyStartDate", pyOr (pGet params "travel_date") .null),
     ("durationNights", pyOr nights .null),
     ("durationDays", durationDays),
     ("adults", pGetD params "adults" (.num 2)),
     ("children", pGetD params "children" (.num 0)),
     ("infants", .num 0),
     ("hotelType", optStrToJVal hotel),
     ("mealPlan", optStrToJVal meal),
     ("specialRequirement", pyOr (pGet params "special_requirements") .null),
     ("aiSummary", pyOr (pGet params "conversation_summary") .null),
     ("source", .str "Voice Agent"),
     ("sourceType", .str "voice_agent"),
     ("utmSource", .str "sanbot"),
     ("utmMedium", .str "voice"),
     ("utmCampaign", .str "orchestrated-livekit"),
     ("notes", .str "Lead captured via SanBot Voice Agent (Orchestrated Mode).")]
  pure (.obj (fields.filter (fun kv => !jIsNull kv.2)))

/-- Response handling of `save_lead`: success iff any of the values at
`success` / `id` / `lead_id` is truthy. -/
def handleSaveResult (params : List (String × JVal)) (result : JVal) : Except PyErr JVal := do
  let s ← jGet result "success"
  let i ← jGet result "id"
  let l ← jGet result "lead_id"
  if pyTruthy (pyOr s (pyOr i l)) then
    pure (.obj
      [("success", .bool true),
       ("message", .str ("Lead saved for " ++ formatVal (pGet params "name") ++ "!")),
       ("lead_id", pyOr i (pyOr l (.str "saved")))])
  else do
    let e ← jGetD result "error" (.str "Unknown error")
    pure (.obj
      [("success", .bool false),
       ("message", .str ("Failed to save lead: " ++ formatVal e))])

/-- Embeds `save_lead`: builds the payload, POSTs it to `/leads` through
`_crm_request`, maps the response.  Returns the (possibly raised) result
together with the network effects performed. -/
def saveLead (params : List (String × JVal)) (st : TokenState) (outcome : HttpOutcome) :
    Except PyErr JVal × List Effect :=
  match buildLeadData params with
  | .error e => (.error e, [])
  | .ok payload =>
    let r := crmRequest st "leads" "POST" (some payload) outcome
    (handleSaveResult params r.1, r.2)

/-! ## `find_packages` -/

/-- Builds the ordered `query_params` of `find_packages` (values already
stringified as `urlencode` would).  Raises exactly where the Python does:
`nights - 1` / `nights + 1` on a truthy non-int `nights`. -/
def buildPackagesQuery (params : List (String × JVal)) : Except PyErr (List (String × String)) := do
  let query := pGetD params "query" (.str "")
  let destination := pyOr (pGetD params "destination" (.str "")) query
  let q1 : List (String × String) :=
    if pyTruthy destination then [("destination", formatVal destination)] else []
  let q2 := q1 ++
    (if pyTruthy (pGet params "min_price") then [("minPrice", formatVal (pGet params "min_price"))]
     else [])
  let q3 := q2 ++
    (if pyTruthy (pGet params "max_price") then [("maxPrice", formatVal (pGet params "max_price"))]
     else [])
  let q4 := q3 ++
    (if pyTruthy (pGet params "package_type") then
      [("packageType", formatVal (pGet params "package_type"))]
     else [])
  let nights := pGet params "nights"
  let q5 ←
    if pyTruthy nights then
      match asIntQ nights with
      | some n =>
        pure (q4 ++ [("minNights", toString (max 1 (n - 1))), ("maxNights", toString (n + 1))])
      | none =>
        .error (.typeError ("unsupported operand type(s) for -: '" ++
          dictTypeName nights ++ "' and 'int'"))
    else pure q4
  pure (q5 ++ [("limit", formatVal (pGetD params "limit" (.num 5)))])

/-- One spoken line of the packages voice summary
(`f"{i + 1}. {name} - {nights} nights at {currency} {price}."`). -/
def pkgPart (i : Nat) (pkg : JVal) : Except PyErr String := do
  let n1 ← jGet pkg "packageName"
  let n2 ← jGet pkg "package_name"
  let n3 ← jGetD pkg "name" (.str "Package")
  let name := pyOr n1 (pyOr n2 n3)
  let g1 ← jGet pkg "totalNights"
  let g2 ← jGet pkg "total_nights"
  let g3 ← jGetD pkg "nights" (.str "?")
  let nights := pyOr g1 (pyOr g2 g3)
  let p1 ← jGet pkg "sellingPrice"
  let p2 ← jGet pkg "selling_price"
  let p3 ← jGetD pkg "price" (.str "?")
  let price := pyOr p1 (pyOr p2 p3)
  let currency ← jGetD pkg "currency" (.str "INR")
  pure (toString (i + 1) ++ ". " ++ formatVal name ++ " - " ++ formatVal nights ++
    " nights at " ++ formatVal currency ++ " " ++ formatVal price ++ ".")

/-- The enumerated voice-summary lines for the first packages. -/
def pkgParts (i : Nat) : List JVal → Except PyErr (List String)
  | [] => .ok []
  | p :: rest => do
    let s ← pkgPart i p
    let r ← pkgParts (i + 1) rest
    pure (s :: r)

/-- Response handling of `find_packages`: tagged failure when
`result.get("success") is False`, otherwise package-list extraction and the
voice summary (at most 3 items named, remainder counted). -/
def handlePackagesResult (result : JVal) : Except PyErr JVal := do
  let s ← jGet result "success"
  match s with
  | .bool false => do
    let e ← jGet result "error"
    pure (.obj
      [("success", .bool false),
       ("message", .str ("Could not fetch packages: " ++ formatVal e)),
       ("packages", .arr [])])
  | _ => do
    let p1 ← jGet result "packages"
    let p2 ← jGet result "data"
    let packages := pyOr p1 (pyOr p2 result)
    let packageList := match packages with | .arr xs => xs | _ => []
    let count := packageList.length
    let voiceSummary ←
      if count = 0 then
        pure "No packages found. Let me suggest some alternatives!"
      else do
        let head := "Found " ++ toString count ++ " package" ++
          (if count > 1 then "s" else "") ++ "!"
        let items ← pkgParts 0 (packageList.take 3)
        let parts := head :: items ++
          (if count > 3 then ["And " ++ toString (count - 3) ++ " more options."] else [])
        pure (String.intercalate " " parts)
    pure (.obj
      [("success", .bool true),
       ("count", .num count),
       ("packages", .arr packageList),
       ("voice_summary", .str voiceSummary)])

/-- Embeds `find_packages`: builds the query, GETs `/packages` through
`_crm_request`, maps the response. -/
def findPackages (params : List (String × JVal)) (st : TokenState) (outcome : HttpOutcome) :
    Except PyErr JVal × List Effect :=
  match buildPackagesQuery params with
  | .error e => (.error e, [])
  | .ok qps =>
    let endpoint := "packages" ++ (if qps.isEmpty then "" else "?" ++ urlencodeParams qps)
    let r := crmRequest st endpoint "GET" none outcome
    (handlePackagesResult r.1, r.2)

/-! ## `get_package_details` -/

/-- Response handling of `get_package_details`: tagged failure when
`result.get("success") is False`, otherwise projection into the fixed output
shape with defaulted fields and the spoken description. -/
def handleDetailsResult (packageId : String) (result : JVal) : Except PyErr JVal := do
  let s ← jGet result "success"
  match s with
  | .bool false => do
    let e ← jGet result "error"
    pure (.obj
      [("success", .bool false),
       ("message", .str ("Could not find package: " ++ formatVal e))])
  | _ => do
    let d ← jGet result "data"
    let pkg := pyOr d result
    let n1 ← jGet pkg "packageName"
    let n2 ← jGet pkg "package_name"
    let n3 ← jGetD pkg "name" (.str "Unknown")
    let name := pyOr n1 (pyOr n2 n3)
    let g1 ← jGet pkg "totalNights"
    let g2 ← jGet pkg "total_nights"
    let g3 ← jGetD pkg "nights" (.num 0)
    let nights := pyOr g1 (pyOr g2 g3)
    let d1 ← jGet pkg "totalDays"
    let days ←
      if pyTruthy d1 then pure d1
      else do
        let d2 ← jGet pkg "total_days"
        if pyTruthy d2 then pure d2
        else if pyTruthy nights then pyAdd nights (.num 1)
        else pure (JVal.num 0)
    let p1 ← jGet pkg "sellingPrice"
    let p2 ← jGet pkg "selling_price"
    let p3 ← jGet pkg "basePrice"
    let p4 ← jGet pkg "base_price"
    let p5 ← jGetD pkg "price" (.num 0)
    let price := pyOr p1 (pyOr p2 (pyOr p3 (pyOr p4 p5)))
    let currency ← jGetD pkg "currency" (.str "INR")
    let descHead := formatVal name ++ ". " ++ formatVal nights ++ " nights " ++ formatVal days ++
      " days starting from " ++ formatVal currency ++ " " ++ formatVal price ++ " per person."
    let inclusions ← jGetD pkg "inclusions" (.arr [])
    let descParts ←
      if pyTruthy inclusions then do
        let sliced ← pyTakeFour inclusions
        let incText ← pyJoin ", " sliced
        let len ← pyLen inclusions
        let incText := if len > 4 then incText ++ " and more" else incText
        pure [descHead, "Includes: " ++ incText ++ "."]
      else pure [descHead]
    let idv ← jGetD pkg "id" (.str packageId)
    let desc ← jGetD pkg "description" (.str "")
    let dests ← jGetD pkg "destinations" (.arr [])
    let excls ← jGetD pkg "exclusions" (.arr [])
    pure (.obj
      [("success", .bool true),
       ("id", idv),
       ("name", name),
       ("description", desc),
       ("price", price),
       ("currency", currency),
       ("nights", nights),
       ("days", days),
       ("destinations", dests),
       ("inclusions", inclusions),
       ("exclusions", excls),
       ("voice_description", .str (String.intercalate " " descParts))])

/-- Embeds `get_package_details`: GETs `/packages/{id}` through
`_crm_request`, maps the response. -/
def getPackageDetails (packageId : String) (st : TokenState) (outcome : HttpOutcome) :
    Except PyErr JVal × List Effect :=
  let r := crmRequest st ("packages/" ++ packageId) "GET" none outcome
  (handleDetailsResult packageId r.1, r.2)

/-! ## Single-flight `_login` — cooperative interleaving model

The source runs on one asyncio event loop, so execution is an interleaving of
atomic blocks separated by `await` points.  `_login` has three such blocks:

* entry: the `if _is_authenticating` check, and (when the flag is clear)
  setting the flag and issuing the POST — there is no `await` between the
  check and the assignment, so they form one atomic block;
* the resumption after `await client.post(...)`: response/token handling,
  the `finally` clearing the flag, and the return/raise;
* one waiter poll: resumption after `await asyncio.sleep(0.1)` followed by
  the validity check (`if _access_token and time.time() < _token_expires_at`).

Each scheduled step carries the task id and the current wall-clock time.
-/

/-- Outcome of the leader's login round trip: a token extracted from the
response, or any raised failure (HTTP error, connection error, timeout,
missing token field). -/
inductive LoginOutcome where
  | success (tok : String)
  | failure
deriving DecidableEq

/-- How one `_login` call terminates. -/
inductive LoginResult where
  | ok (tok : String)
  | authTimeout
  | loginFailed
deriving DecidableEq

/-- Program counter of one task running `_login`. -/
inductive TaskPC where
  | entry
  | awaitingNet
  | polling (k : Nat)
  | done (r : LoginResult)
deriving DecidableEq

/-- Global configuration: the module token state, the `_is_authenticating`
flag, a counter of login network calls issued, and each task's position. -/
structure LoginCfg (n : Nat) where
  accessToken : Option String
  tokenExpiresAt : Nat
  isAuthenticating : Bool
  netCalls : Nat
  pcs : Fin n → TaskPC

/-- The waiter's validity check `_access_token and time.time() < _token_expires_at`
(truthiness of the token string, then expiry). -/
def loginTokenValid {n : Nat} (cfg : LoginCfg n) (now : Nat) : Bool :=
  match cfg.accessToken with
  | none => false
  | some t => t != "" && decide (now < cfg.tokenExpiresAt)

def POLL_COUNT : Nat := 50

/-- One atomic step of task `tid` at time `now`.  The oracle fixes the
network outcome a task would observe as leader. -/
def loginStep {n : Nat} (oracle : Fin n → LoginOutcome) (cfg : LoginCfg n)
    (tid : Fin n) (now : Nat) : LoginCfg n :=
  match cfg.pcs tid with
  | .entry =>
    if cfg.isAuthenticating then
      { cfg with pcs := Function.update cfg.pcs tid (.polling POLL_COUNT) }
    else
      { cfg with
          isAuthenticating := true
          netCalls := cfg.netCalls + 1
          pcs := Function.update cfg.pcs tid .awaitingNet }
  | .awaitingNet =>
    match oracle tid with
    | .success tok =>
      if tok = "" then
        { cfg with
            isAuthenticating := false
            pcs := Function.update cfg.pcs tid (.done .loginFailed) }
      else
        { cfg with
            accessToken := some tok
            tokenExpiresAt := now + TOKEN_LIFETIME_SECONDS
            isAuthenticating := false
            pcs := Function.update cfg.pcs tid (.done (.ok tok)) }
    | .failure =>
      { cfg with
          isAuthenticating := false
          pcs := Function.update cfg.pcs tid (.done .loginFailed) }
  | .polling k =>
    if loginTokenValid cfg now then
      { cfg with pcs := Function.update cfg.pcs tid (.done (.ok (cfg.accessToken.getD ""))) }
    else if k ≤ 1 then
      { cfg with pcs := Function.update cfg.pcs tid (.done .authTimeout) }
    else
      { cfg with pcs := Function.update cfg.pcs tid (.polling (k - 1)) }
  | .done _ => cfg

/-- Runs a schedule (a list of `(task, time)` steps). -/
def loginRun {n : Nat} (oracle : Fin n → LoginOutcome) (cfg : LoginCfg n) :
    List (Fin n × Nat) → LoginCfg n
  | [] => cfg
  | p :: rest => loginRun oracle (loginStep oracle cfg p.1 p.2) rest

/-- Initial configuration: no token cached, flag clear, all tasks entering. -/
def loginInit (n : Nat) : LoginCfg n :=
  ⟨none, 0, false, 0, fun _ => .entry⟩

/-- The token the leader caches, if its round trip succeeds with a truthy
token (the source raises on a falsy token field). -/
def leaderToken {n : Nat} (oracle : Fin n → LoginOutcome) (leader : Fin n) : Option String :=
  match oracle leader with
  | .success tok => if tok = "" then none else some tok
  | .failure => none

/-! ## `HeyGenAudioTap` — segment state machine

State observed by the segment lifecycle: the `_segment_active` flag, the
`_closed` flag and the bounded send queue.  Emissions are the
`on_playback_finished(...)` calls to the producer and the fire-and-forget
interrupt notification to HeyGen.  (The lazily created resampler is the
identity in this model: it does not interact with the segment lifecycle.)
-/

def SEND_QUEUE_MAXSIZE : Nat := 500

/-- The bytes of the reserved sentinel `b"__FLUSH__"`. -/
def FLUSH_SENTINEL : List Nat := [95, 95, 70, 76, 85, 83, 72, 95, 95]

structure TapState where
  segmentActive : Bool
  closed : Bool
  queue : List (List Nat)
deriving DecidableEq

inductive TapEvent where
  | captureFrame (bytes : List Nat)
  | flush
  | clearBuffer
deriving DecidableEq

inductive TapEmit where
  | playbackFinished (interrupted : Bool)
  | interruptNotify
deriving DecidableEq

/-- `put_nowait` on the bounded queue: drops the item when full. -/
def tapEnqueue (q : List (List Nat)) (item : List Nat) : List (List Nat) :=
  if q.length < SEND_QUEUE_MAXSIZE then q ++ [item] else q

/-- One tap method call.  `capture_frame` marks the segment active before the
closed check, then queues the frame bytes; `flush` emits exactly one
non-interrupted finished signal when a segment is active and queues the
sentinel; `clear_buffer` emits exactly one interrupted finished signal when a
segment is active, drains the queue and notifies HeyGen. -/
def tapStep (s : TapState) : TapEvent → TapState × List TapEmit
  | .captureFrame b =>
    let s1 := { s with segmentActive := true }
    if s.closed then (s1, [])
    else ({ s1 with queue := tapEnqueue s1.queue b }, [])
  | .flush =>
    let r :=
      if s.segmentActive then
        ({ s with segmentActive := false }, [TapEmit.playbackFinished false])
      else (s, [])
    ({ r.1 with queue := tapEnqueue r.1.queue FLUSH_SENTINEL }, r.2)
  | .clearBuffer =>
    let r :=
      if s.segmentActive then
        ({ s with segmentActive := false }, [TapEmit.playbackFinished true])
      else (s, [])
    ({ r.1 with queue := [] }, r.2 ++ [TapEmit.interruptNotify])

/-- Runs a sequence of tap calls, accumulating emissions in order. -/
def runTap (s : TapState) : List TapEvent → TapState × List TapEmit
  | [] => (s, [])
  | e :: evs =>
    let r := tapStep s e
    let rest := runTap r.1 evs
    (rest.1, r.2 ++ rest.2)

/-- Selects the `on_playback_finished` emissions. -/
def isFinishedEmit : TapEmit → Bool
  | .playbackFinished _ => true
  | .interruptNotify => false

/-! ## `HeyGenAudioTap._send_loop` — delivery order

The background sender drains the queue without any intervening `await`, so
one iteration sees a fixed queue content; new items arrive only at the
`await` points (queue wait, audio send, speak-end send).  `runSendLoop`
therefore takes the current queue plus a list of arrival chunks, one chunk
appended after each iteration.
-/

/-- Outbound messages of the send loop: one batched audio message, or the
end-of-speech notification. -/
inductive SendMsg where
  | audio (b : List Nat)
  | speakEnd
deriving DecidableEq

/-- The inner drain of one iteration: accumulates items until the queue is
empty or the sentinel is found.  Returns the drained batch items, whether
the sentinel was found, and the remaining queue. -/
def drainBatch : List (List Nat) → (List (List Nat) × Bool × List (List Nat))
  | [] => ([], false, [])
  | x :: xs =>
    if x = FLUSH_SENTINEL then ([], true, xs)
    else
      let r := drainBatch xs
      (x :: r.1, r.2.1, r.2.2)

/-- The send loop: first item sentinel — emit speak-end alone; otherwise
batch all immediately available audio, send it, and send speak-end after it
when the sentinel terminated the drain. -/
def runSendLoop : List (List Nat) → List (List (List Nat)) → List SendMsg
  | [], [] => []
  | [], c :: cs => runSendLoop c cs
  | x :: xs, arrs =>
    if x = FLUSH_SENTINEL then
      SendMsg.speakEnd :: runSendLoop (xs ++ arrs.headD []) arrs.tail
    else
      let d := drainBatch xs
      SendMsg.audio (x ++ d.1.flatten) ::
        (if d.2.1 then
          SendMsg.speakEnd :: runSendLoop (d.2.2 ++ arrs.headD []) arrs.tail
        else
          runSendLoop (d.2.2 ++ arrs.headD []) arrs.tail)
termination_by pending arrs => pending.length + (arrs.map List.length).sum + arrs.length
decreasing_by
  · cases cs <;> simp [List.map_cons] <;> omega
  · cases arrs <;> simp <;> omega
  · have hd : ∀ ys : List (List Nat), (drainBatch ys).2.2.length ≤ ys.length := by
      intro ys
      induction ys with
      | nil => simp [drainBatch]
      | cons a as ih => by_cases h : a = FLUSH_SENTINEL <;> simp [drainBatch, h] <;> omega
    have := hd xs
    cases arrs <;> simp <;> omega
  · have hd : ∀ ys : List (List Nat), (drainBatch ys).2.2.length ≤ ys.length := by
      intro ys
      induction ys with
      | nil => simp [drainBatch]
      | cons a as ih => by_cases h : a = FLUSH_SENTINEL <;> simp [drainBatch, h] <;> omega
    have := hd xs
    cases arrs <;> simp <;> omega

/-- The canonical event stream of queue items: audio bytes in order, with
the sentinel as a segment-end marker. -/
inductive StreamEv where
  | byte (x : Nat)
  | segmentEnd
deriving DecidableEq

def streamOfItems (items : List (List Nat)) : List StreamEv :=
  items.flatMap (fun b => if b = FLUSH_SENTINEL then [StreamEv.segmentEnd] else b.map StreamEv.byte)

def streamOfMsgs (msgs : List SendMsg) : List StreamEv :=
  msgs.flatMap (fun m =>
    match m with
    | .audio b => b.map StreamEv.byte
    | .speakEnd => [StreamEv.segmentEnd])

/-! ## `HeyGenBYOLISession.stop` -/

/-- Session-manager state relevant to `stop()`: identifiers, task handles,
channel resources, the audio tap, and the started flag. -/
structure SessState where
  sessionId : Option String
  sessionToken : Option String
  wsUrl : Option String
  restTask : Bool
  wsTask : Bool
  wsOpen : Bool
  wsSession : Bool
  audioTap : Bool
  started : Bool
deriving DecidableEq

/-- Externally visible actions of `stop()`. -/
inductive StopEffect where
  | closeAudioTap
  | cancelWsKeepAlive
  | cancelRestKeepAlive
  | closeWs
  | closeWsSession
  | externalStop (sessionId : Option String) (sessionToken : String)
deriving DecidableEq

/-- Embeds `stop()`: a no-op when not started; otherwise closes the tap,
cancels both keep-alive tasks, closes the channel, issues the best-effort
external stop (only with a truthy session token), and resets all state. -/
def sessionStop (s : SessState) : SessState × List StopEffect :=
  if s.started then
    let e1 := if s.audioTap then [StopEffect.closeAudioTap] else []
    let e2 := if s.wsTask then [StopEffect.cancelWsKeepAlive] else []
    let e3 := if s.restTask then [StopEffect.cancelRestKeepAlive] else []
    let e4 := if s.wsOpen then [StopEffect.closeWs] else []
    let e5 := if s.wsSession then [StopEffect.closeWsSession] else []
    let e6 :=
      match s.sessionToken with
      | some tok => if tok = "" then [] else [StopEffect.externalStop s.sessionId tok]
      | none => []
    (⟨none, none, none, false, false, false, false, false, false⟩,
     e1 ++ e2 ++ e3 ++ e4 ++ e5 ++ e6)
  else (s, [])

/-! ## Concrete data and specification-level predicates used by the theorems -/

/-- The C5 scenario input: `save_lead` called with only `name="Asha"`. -/
def ashaParams : List (String × JVal) := [("name", .str "Asha")]

/-- The payload the source builds for `ashaParams` (after `None`-filtering). -/
def ashaPayloadFields : List (String × JVal) :=
  [("name", .str "Asha"),
   ("adults", .num 2),
   ("children", .num 0),
   ("infants", .num 0),
   ("source", .str "Voice Agent"),
   ("sourceType", .str "voice_agent"),
   ("utmSource", .str "sanbot"),
   ("utmMedium", .str "voice"),
   ("utmCampaign", .str "orchestrated-livekit"),
   ("notes", .str "Lead captured via SanBot Voice Agent (Orchestrated Mode).")]

/-- A gateway result reports success: it is a returned dict whose
`success` field is `True`. -/
def reportedSuccess (r : Except PyErr JVal) : Prop :=
  ∃ fs, r = .ok (.obj fs) ∧ lookupField fs "success" = some (.bool true)

/-- Invariant of the login interleaving after every concurrent caller has
executed its entry block and the first caller (the leader) has issued the
single network call: exactly one network call was made, the cached token can
only be the leader's token, the in-flight flag tracks the leader's pending
round trip, and every other task only polls or has finished with the
leader's token or a timeout. -/
def LoginInv {n : Nat} (oracle : Fin n → LoginOutcome) (leader : Fin n)
    (cfg : LoginCfg n) : Prop :=
  cfg.netCalls = 1 ∧
  (cfg.accessToken = none ∨
    ∃ l, leaderToken oracle leader = some l ∧ cfg.accessToken = some l) ∧
  (cfg.isAuthenticating = true ↔ cfg.pcs leader = .awaitingNet) ∧
  (cfg.pcs leader = .awaitingNet ∨ ∃ r, cfg.pcs leader = .done r) ∧
  (∀ t, t ≠ leader →
    (∃ k, cfg.pcs t = .polling k) ∨ cfg.pcs t = .done .authTimeout ∨
    (∃ l, leaderToken oracle leader = some l ∧ cfg.pcs t = .done (.ok l)))

/-! ## Theorems -/

theorem pyRepr_null : pyRepr .null = "None" := by simp [pyRepr]

theorem pyRepr_bool (b : Bool) : pyRepr (.bool b) = if b then "True" else "False" := by
  simp [pyRepr]

theorem pyRepr_num (n : Int) : pyRepr (.num n) = toString n := by simp [pyRepr]

theorem pyRepr_str (s : String) : pyRepr (.str s) = "'" ++ s ++ "'" := by simp [pyRepr]

theorem pyTruthy_pyOr (a b : JVal) : pyTruthy (pyOr a b) = (pyTruthy a || pyTruthy b) := by
  by_cases h : pyTruthy a <;> simp [pyOr, h]

theorem normalizeHotelType_verbatim (s : String) (hs : s ≠ "")
    (hmiss : hotelRuleHit (pyStrip (pyLower s)) = false) :
    normalizeHotelType s = some s := by
  simp only [hotelRuleHit, Bool.or_eq_false_iff] at hmiss
  simp only [normalizeHotelType, if_neg hs]
  simp [hmiss.1, hmiss.2]

theorem normalizeMealPlan_verbatim (s : String) (hs : s ≠ "")
    (hmiss : mealRuleHit (pyStrip (pyLower s)) = false) :
    normalizeMealPlan s = some s := by
  simp only [mealRuleHit, Bool.or_eq_false_iff, decide_eq_false_iff_not] at hmiss
  simp only [normalizeMealPlan, if_neg hs]
  simp [hmiss.1, hmiss.2]

/-- C6: hotel-type and meal-plan normalization are pure, deterministic,
case-insensitive substring matching over the source's fixed rule table:
`"5 star luxury"` maps to `"5 Star"`, `"budget"` (any casing) to `"2 Star"`,
`"no meals"` (any casing) to `"EP"`, the empty string to `None`, and any
input matching no rule is passed through verbatim. -/
theorem normalization_fixed_table (s t : String)
    (hs : s ≠ "") (hsMiss : hotelRuleHit (pyStrip (pyLower s)) = false)
    (ht : t ≠ "") (htMiss : mealRuleHit (pyStrip (pyLower t)) = false) :
    normalizeHotelType "5 star luxury" = some "5 Star" ∧
    normalizeHotelType "budget" = some "2 Star" ∧
    normalizeHotelType "BUDGET" = some "2 Star" ∧
    normalizeMealPlan "no meals" = some "EP" ∧
    normalizeMealPlan "NO MEALS" = some "EP" ∧
    normalizeHotelType "" = none ∧
    normalizeMealPlan "" = none ∧
    normalizeHotelType s = some s ∧
    normalizeMealPlan t = some t :=
  ⟨by decide, by decide, by decide, by decide, by decide, by decide, by decide,
   normalizeHotelType_verbatim s hs hsMiss, normalizeMealPlan_verbatim t ht htMiss⟩

/-- Witness for C6 at the unmatched inputs `"xyz"` and `"qq"`. -/
theorem normalization_fixed_table_witness :
    normalizeHotelType "5 star luxury" = some "5 Star" ∧
    normalizeHotelType "budget" = some "2 Star" ∧
    normalizeHotelType "BUDGET" = some "2 Star" ∧
    normalizeMealPlan "no meals" = some "EP" ∧
    normalizeMealPlan "NO MEALS" = some "EP" ∧
    normalizeHotelType "" = none ∧
    normalizeMealPlan "" = none ∧
    normalizeHotelType "xyz" = some "xyz" ∧
    normalizeMealPlan "qq" = some "qq" :=
  normalization_fixed_table "xyz" "qq" (by decide) (by decide) (by decide) (by decide)

/-- C9: `stop()` is idempotent — a no-op (no effects, state unchanged) when
the session is not started, and a second consecutive `stop()` performs no
effect at all (in particular no duplicate external stop request) and leaves
the already-reset state unchanged. -/
theorem session_stop_idempotent :
    (∀ s : SessState, s.started = false → sessionStop s = (s, [])) ∧
    (∀ s : SessState, sessionStop (sessionStop s).1 = ((sessionStop s).1, [])) := by
  constructor
  · intro s hs
    simp [sessionStop, hs]
  · intro s
    by_cases hs : s.started <;> simp [sessionStop, hs]

/-- Witness for C9: a fully populated active session — the second stop after
stopping it is a no-op, and stopping a non-started session is a no-op. -/
theorem session_stop_idempotent_witness :
    sessionStop ⟨none, none, none, false, false, false, false, false, false⟩ =
      (⟨none, none, none, false, false, false, false, false, false⟩, []) ∧
    sessionStop
        (sessionStop ⟨some "sid", some "stok", some "wss://x", true, true, true, true, true, true⟩).1 =
      ((sessionStop ⟨some "sid", some "stok", some "wss://x", true, true, true, true, true, true⟩).1,
        []) :=
  ⟨session_stop_idempotent.1 _ rfl, session_stop_idempotent.2 _⟩

theorem tapStep_captureFrame (s : TapState) (b : List Nat) :
    (tapStep s (.captureFrame b)).2 = [] ∧
    (tapStep s (.captureFrame b)).1.segmentActive = true := by
  simp only [tapStep]
  split <;> simp

theorem runTap_nil (s : TapState) : runTap s [] = (s, []) := rfl

theorem runTap_cons (s : TapState) (e : TapEvent) (evs : List TapEvent) :
    runTap s (e :: evs) =
      ((runTap (tapStep s e).1 evs).1, (tapStep s e).2 ++ (runTap (tapStep s e).1 evs).2) := rfl

theorem runTap_append (s : TapState) (a b : List TapEvent) :
    runTap s (a ++ b) =
      ((runTap (runTap s a).1 b).1, (runTap s a).2 ++ (runTap (runTap s a).1 b).2) := by
  induction a generalizing s with
  | nil => simp [runTap_nil]
  | cons e es ih =>
    simp only [List.cons_append, runTap_cons, ih]
    simp [List.append_assoc]

theorem runTap_captures (s : TapState) (frames : List (List Nat)) :
    (runTap s (frames.map TapEvent.captureFrame)).2 = [] ∧
    (runTap s (frames.map TapEvent.captureFrame)).1.segmentActive =
      (if frames.isEmpty then s.segmentActive else true) := by
  induction frames generalizing s with
  | nil => simp [runTap_nil]
  | cons f fs ih =>
    have hc := tapStep_captureFrame s f
    have ihs := ih (tapStep s (.captureFrame f)).1
    simp only [List.map_cons, runTap_cons, hc.1, List.nil_append, List.isEmpty_cons]
    refine ⟨ihs.1, ?_⟩
    rw [ihs.2]
    by_cases hfs : fs.isEmpty <;> simp [hfs, hc.2]

/-- C1: for any segment — a run of `capture_frame` calls from a state with no
active segment, terminated by exactly one `flush()` or `clear_buffer()` — the
tap emits `on_playback_finished` exactly once when at least one frame was
captured (with `interrupted = True` iff the terminator was `clear_buffer`),
and zero times when no frame was captured; moreover both terminators always
leave the segment flag cleared, so consecutive segments all start from such a
state. -/
theorem tap_segment_invariant (s : TapState) (frames : List (List Nat)) (isClear : Bool)
    (h : s.segmentActive = false) :
    ((runTap s (frames.map TapEvent.captureFrame ++
        [if isClear then TapEvent.clearBuffer else TapEvent.flush])).2.filter isFinishedEmit =
      if frames.isEmpty then [] else [TapEmit.playbackFinished isClear]) ∧
    (∀ s' : TapState, (tapStep s' .flush).1.segmentActive = false ∧
      (tapStep s' .clearBuffer).1.segmentActive = false) := by
  constructor
  · rw [runTap_append]
    obtain ⟨hemit, hact⟩ := runTap_captures s frames
    rw [List.filter_append, hemit, List.filter_nil, List.nil_append]
    by_cases hfs : frames.isEmpty
    · rw [hfs] at hact
      simp only [if_pos hfs, h] at hact ⊢
      cases isClear <;>
        simp [runTap_cons, runTap_nil, tapStep, hact, isFinishedEmit]
    · rw [if_neg hfs] at hact
      simp only [if_neg hfs]
      cases isClear <;>
        simp [runTap_cons, runTap_nil, tapStep, hact, isFinishedEmit]
  · intro s'
    constructor <;> (simp only [tapStep]; split <;> simp_all)

/-- Witness for C1: two captured frames terminated by `clear_buffer` emit
exactly one interrupted finished-signal. -/
theorem tap_segment_invariant_witness :
    ((runTap ⟨false, false, []⟩ ([[1, 2], [3]].map TapEvent.captureFrame ++
        [if true then TapEvent.clearBuffer else TapEvent.flush])).2.filter isFinishedEmit =
      if ([[1, 2], [3]] : List (List Nat)).isEmpty then []
      else [TapEmit.playbackFinished true]) ∧
    (∀ s' : TapState, (tapStep s' .flush).1.segmentActive = false ∧
      (tapStep s' .clearBuffer).1.segmentActive = false) :=
  tap_segment_invariant ⟨false, false, []⟩ [[1, 2], [3]] true rfl

theorem crmRequest_effects_some (t : String) (e : Nat) (ep m : String) (b : Option JVal)
    (o : HttpOutcome) (ht : t ≠ "") :
    (crmRequest ⟨some t, e⟩ ep m b o).2 =
      [Effect.netRequest ⟨crmUrl ep, m, authHeaders (some t), b⟩] := by
  unfold crmRequest
  simp only [if_neg ht]
  rcases o with _ | msg | ⟨status, jb⟩
  · rfl
  · rfl
  · by_cases h1 : status = 401
    · simp [h1]
    · by_cases h2 : 400 ≤ status
      · simp [h1, h2]
      · rcases jb <;> simp [h1, h2]

theorem crmRequest_effects (st : TokenState) (ep m : String) (b : Option JVal)
    (o : HttpOutcome) :
    (crmRequest st ep m b o).2 = [] ∨
    ∃ r, (crmRequest st ep m b o).2 = [Effect.netRequest r] := by
  rcases st with ⟨tok, e⟩
  rcases tok with _ | t
  · left
    rfl
  · by_cases ht : t = ""
    · left
      simp [crmRequest, ht]
    · right
      exact ⟨_, crmRequest_effects_some t e ep m b o ht⟩

/-- C3: with no cached token, `_crm_request` returns the structured
not-authenticated failure (`success: False` with the distinguishable
"CRM not authenticated (token missing)" message) while performing no network
request, and none of the three runtime tool operations can ever perform a
`_login` attempt, for any input, token state and network outcome. -/
theorem crm_fail_fast_never_logs_in :
    (∀ (st : TokenState) (ep m : String) (b : Option JVal) (o : HttpOutcome),
      st.accessToken = none → crmRequest st ep m b o = (notAuthResult, [])) ∧
    (∀ (params : List (String × JVal)) (st : TokenState) (o : HttpOutcome),
      Effect.loginAttempt ∉ (saveLead params st o).2) ∧
    (∀ (params : List (String × JVal)) (st : TokenState) (o : HttpOutcome),
      Effect.loginAttempt ∉ (findPackages params st o).2) ∧
    (∀ (pid : String) (st : TokenState) (o : HttpOutcome),
      Effect.loginAttempt ∉ (getPackageDetails pid st o).2) := by
  have hmem : ∀ (st : TokenState) (ep m : String) (b : Option JVal) (o : HttpOutcome),
      Effect.loginAttempt ∉ (crmRequest st ep m b o).2 := by
    intro st ep m b o
    rcases crmRequest_effects st ep m b o with h | ⟨r, h⟩ <;> simp [h]
  refine ⟨?_, ?_, ?_, ?_⟩
  · intro st ep m b o h
    simp [crmRequest, h]
  · intro params st o
    unfold saveLead
    rcases buildLeadData params with e | payload
    · simp
    · exact hmem st "leads" "POST" (some payload) o
  · intro params st o
    unfold findPackages
    rcases buildPackagesQuery params with e | qps
    · simp
    · exact hmem st _ "GET" none o
  · intro pid st o
    exact hmem st _ "GET" none o

/-- Witness for C3: a timeout outcome with an empty cache — `_crm_request`
fails fast with no effect, and `save_lead` performs no login attempt. -/
theorem crm_fail_fast_never_logs_in_witness :
    crmRequest ⟨none, 0⟩ "leads" "POST" none .timeout = (notAuthResult, []) ∧
    Effect.loginAttempt ∉ (saveLead ashaParams ⟨none, 0⟩ .timeout).2 :=
  ⟨crm_fail_fast_never_logs_in.1 ⟨none, 0⟩ "leads" "POST" none .timeout rfl,
   crm_fail_fast_never_logs_in.2.1 ashaParams ⟨none, 0⟩ .timeout⟩

/-- C10: with a cached but expired token (`_has_valid_token` is false),
`_crm_request` does not fail fast and does not consult the expiry timestamp
at all: it issues the network request with the stale token in the bearer
header, and its entire behavior is unchanged under any other expiry
timestamp.  The warmup path, by contrast, does treat such a state as needing
a login. -/
theorem expired_token_sent_anyway (t : String) (e now : Nat) (ep m : String)
    (b : Option JVal) (o : HttpOutcome) (ht : t ≠ "") (hexp : e ≤ now) :
    hasValidToken ⟨some t, e⟩ now = false ∧
    (crmRequest ⟨some t, e⟩ ep m b o).2 =
      [Effect.netRequest ⟨crmUrl ep, m,
        [("Content-Type", "application/json"), ("Authorization", "Bearer " ++ t)], b⟩] ∧
    (∀ e' : Nat, crmRequest ⟨some t, e⟩ ep m b o = crmRequest ⟨some t, e'⟩ ep m b o) ∧
    ensureAuthenticatedEffects ⟨some t, e⟩ now = [Effect.loginAttempt] := by
  have hv : hasValidToken (⟨some t, e⟩ : TokenState) now = false := by
    simp [hasValidToken]
    omega
  refine ⟨hv, ?_, fun e' => rfl, by simp [ensureAuthenticatedEffects, hv]⟩
  rw [crmRequest_effects_some t e ep m b o ht]
  simp [authHeaders, ht]

/-- Witness for C10: token `"tok"` expired at time 100, current time 200. -/
theorem expired_token_sent_anyway_witness :
    hasValidToken ⟨some "tok", 100⟩ 200 = false ∧
    (crmRequest ⟨some "tok", 100⟩ "packages" "GET" none .timeout).2 =
      [Effect.netRequest ⟨crmUrl "packages", "GET",
        [("Content-Type", "application/json"), ("Authorization", "Bearer " ++ "tok")], none⟩] ∧
    (∀ e' : Nat, crmRequest ⟨some "tok", 100⟩ "packages" "GET" none .timeout =
      crmRequest ⟨some "tok", e'⟩ "packages" "GET" none .timeout) ∧
    ensureAuthenticatedEffects ⟨some "tok", 100⟩ 200 = [Effect.loginAttempt] :=
  expired_token_sent_anyway "tok" 100 200 "packages" "GET" none .timeout
    (by decide) (by decide)

/-- Counterexample to C7: at the requested duration `n = 1`, the query
carries `minNights = "1"` (the source computes `max(1, nights - 1)`), not the
claimed `n - 1 = 0`. -/
theorem find_packages_min_nights_clamped :
    buildPackagesQuery [("nights", JVal.num 1)] =
      .ok [("minNights", "1"), ("maxNights", "2"), ("limit", "5")] ∧
    ("minNights", toString ((1 : Int) - 1)) ∉
      [("minNights", "1"), ("maxNights", "2"), ("limit", "5")] := by
  have h : buildPackagesQuery [("nights", JVal.num 1)] =
      .ok [("minNights", "1"), ("maxNights", "2"), ("limit", "5")] := by
    simp [buildPackagesQuery, pGet, pGetD, lookupField, pyTruthy, pyOr, asIntQ,
      formatVal, pyRepr_num]
    rfl
  exact ⟨h, by decide⟩

/-- C7 (amended): for every positive requested duration `n`, `find_packages`
translates the duration filter into the query-parameter range
`minNights = max(1, n - 1)` and `maxNights = n + 1` — the claimed `n - 1`
lower bound is clamped to at least one night. -/
theorem find_packages_duration_range (n : Int) (params : List (String × JVal))
    (hn : 0 < n) (hp : pGet params "nights" = .num n) :
    ∃ qs, buildPackagesQuery params = .ok qs ∧
      ("minNights", toString (max 1 (n - 1))) ∈ qs ∧
      ("maxNights", toString (n + 1)) ∈ qs := by
  have htr : pyTruthy (JVal.num n) = true := by
    simp [pyTruthy]
    omega
  unfold buildPackagesQuery
  rw [hp]
  simp only [htr, asIntQ, if_true, Except.bind, bind, pure, Except.pure]
  exact ⟨_, rfl, by simp, by simp⟩

/-- Witness for C7 (amended) at `n = 3`: the range is 2..4 nights. -/
theorem find_packages_duration_range_witness :
    ∃ qs, buildPackagesQuery [("nights", JVal.num 3)] = .ok qs ∧
      ("minNights", toString (max 1 ((3 : Int) - 1))) ∈ qs ∧
      ("maxNights", toString ((3 : Int) + 1)) ∈ qs :=
  find_packages_duration_range 3 [("nights", JVal.num 3)] (by decide)
    (by simp [pGet, lookupField])

theorem handleSaveResult_obj (params flds : List (String × JVal)) :
    handleSaveResult params (.obj flds) =
      (if pyTruthy (pGet flds "success") || pyTruthy (pGet flds "id") ||
          pyTruthy (pGet flds "lead_id") then
        .ok (.obj [("success", .bool true),
          ("message", .str ("Lead saved for " ++ formatVal (pGet params "name") ++ "!")),
          ("lead_id", pyOr (pGet flds "id") (pyOr (pGet flds "lead_id") (.str "saved")))])
      else
        .ok (.obj [("success", .bool false),
          ("message", .str ("Failed to save lead: " ++
            formatVal (pGetD flds "error" (.str "Unknown error"))))])) := by
  simp only [handleSaveResult, jGet, jGetD, pGet, pGetD, bind, Except.bind, pyTruthy_pyOr,
    Bool.or_assoc]
  rfl

/-- Counterexample to C5: a 200 response whose body `{"success": false}`
contains the key `success`, yet `save_lead` reports failure — the source
tests the truthiness of the values, not the presence of the keys. -/
theorem save_lead_presence_not_sufficient :
    (saveLead ashaParams ⟨some "tok", 3000⟩
        (.response 200 (.ok (.obj [("success", .bool false)])))).1 =
      .ok (.obj [("success", .bool false),
                 ("message", .str "Failed to save lead: Unknown error")]) := rfl

/-- C5 (amended): `save_lead` called with only `name="Asha"` builds a payload
with no null-valued fields (and sends exactly that payload), and for every
200 JSON-object response it reports success if and only if at least one of
the values at `success` / `id` / `lead_id` is truthy — mere presence of
those keys is not sufficient. -/
theorem save_lead_payload_and_truthy_success :
    buildLeadData ashaParams = .ok (.obj ashaPayloadFields) ∧
    (∀ kv ∈ ashaPayloadFields, kv.2 ≠ JVal.null) ∧
    (∀ (t : String) (e : Nat) (o : HttpOutcome), t ≠ "" →
      (saveLead ashaParams ⟨some t, e⟩ o).2 =
        [Effect.netRequest ⟨crmUrl "leads", "POST", authHeaders (some t),
          some (.obj ashaPayloadFields)⟩]) ∧
    (∀ (flds : List (String × JVal)) (t : String) (e : Nat), t ≠ "" →
      (reportedSuccess (saveLead ashaParams ⟨some t, e⟩
          (.response 200 (.ok (.obj flds)))).1 ↔
        (pyTruthy (pGet flds "success") || pyTruthy (pGet flds "id") ||
          pyTruthy (pGet flds "lead_id")) = true)) := by
  have hbld : buildLeadData ashaParams = .ok (.obj ashaPayloadFields) := rfl
  refine ⟨hbld, ?_, ?_, ?_⟩
  · intro kv hkv
    simp only [ashaPayloadFields, List.mem_cons, List.not_mem_nil, or_false] at hkv
    rcases hkv with h | h | h | h | h | h | h | h | h | h <;> subst h <;> simp
  · intro t e o ht
    exact crmRequest_effects_some t e "leads" "POST" (some (.obj ashaPayloadFields)) o ht
  · intro flds t e ht
    have hcr : (crmRequest ⟨some t, e⟩ "leads" "POST" (some (.obj ashaPayloadFields))
        (.response 200 (.ok (.obj flds)))).1 = .obj flds := by
      simp [crmRequest, ht]
    have hred : (saveLead ashaParams ⟨some t, e⟩ (.response 200 (.ok (.obj flds)))).1 =
        handleSaveResult ashaParams (.obj flds) := by
      simp only [saveLead, hbld]
      rw [hcr]
    rw [hred, handleSaveResult_obj]
    simp only [reportedSuccess]
    by_cases hb : (pyTruthy (pGet flds "success") || pyTruthy (pGet flds "id") ||
        pyTruthy (pGet flds "lead_id")) = true
    · rw [if_pos hb]
      exact iff_of_true ⟨_, rfl, by simp [lookupField]⟩ hb
    · rw [if_neg hb]
      refine iff_of_false ?_ hb
      rintro ⟨fs, heq, hlook⟩
      injection heq with heq'
      injection heq' with heq''
      subst heq''
      simp [lookupField] at hlook

/-- Witness for C5: a body with a truthy `id` makes the applied instance
report success. -/
theorem save_lead_payload_and_truthy_success_witness :
    reportedSuccess (saveLead ashaParams ⟨some "tok", 0⟩
        (.response 200 (.ok (.obj [("id", .num 7)])))).1 :=
  (save_lead_payload_and_truthy_success.2.2.2 [("id", .num 7)] "tok" 0
    (by decide)).mpr (by decide)

/-- C4 failing input: with a cached token, an HTTP 200 response whose JSON
body is a top-level array (`[]`) makes `find_packages` raise
`AttributeError: 'list' object has no attribute 'get'` at
`result.get("success")` instead of returning a tagged result — the tagged
`success: False` propagation policy holds for every transport failure and
error status, but not for non-object 2xx bodies. -/
theorem find_packages_raises_on_array_body :
    (findPackages [("query", JVal.str "Goa")] ⟨some "tok", 0⟩
        (.response 200 (.ok (.arr [])))).1 =
      .error (.attributeError "'list' object has no attribute 'get'") ∧
    (∀ (params : List (String × JVal)) (st : TokenState),
      ∃ emsg, (findPackages params st .timeout).1 =
        .ok (.obj [("success", .bool false),
          ("message", .str ("Could not fetch packages: " ++ emsg)),
          ("packages", .arr [])]) ∨
        (findPackages params st .timeout).1 = .error (.typeError emsg)) ∧
    (∀ (params : List (String × JVal)) (st : TokenState) (msg : String),
      ∃ emsg, (findPackages params st (.exc msg)).1 =
        .ok (.obj [("success", .bool false),
          ("message", .str ("Could not fetch packages: " ++ emsg)),
          ("packages", .arr [])]) ∨
        (findPackages params st (.exc msg)).1 = .error (.typeError emsg)) := by
  have main : ∀ (params : List (String × JVal)) (st : TokenState) (o : HttpOutcome)
      (msg : String), o = .timeout ∨ o = .exc msg →
      ∃ emsg, (findPackages params st o).1 =
        .ok (.obj [("success", .bool false),
          ("message", .str ("Could not fetch packages: " ++ emsg)),
          ("packages", .arr [])]) ∨
        (findPackages params st o).1 = .error (.typeError emsg) := by
    intro params st o msg ho
    unfold findPackages
    rcases hq : buildPackagesQuery params with e | qps
    · rcases e with m | m
      · exfalso
        revert hq
        unfold buildPackagesQuery
        rcases hnv : pGet params "nights" with _ | b | n | s | xs | fs <;>
          simp [hnv, bind, Except.bind, pure, Except.pure, asIntQ] <;>
          split <;> simp
      · exact ⟨m, Or.inr rfl⟩
    · rcases st with ⟨tok, e⟩
      rcases tok with _ | t
      · refine ⟨"CRM not authenticated (token missing)", Or.inl ?_⟩
        simp [crmRequest, handlePackagesResult, notAuthResult, jGet, jGetD, bind, Except.bind,
          lookupField, formatVal]
        rfl
      · by_cases ht : t = ""
        · refine ⟨"CRM not authenticated (token missing)", Or.inl ?_⟩
          simp [crmRequest, ht, handlePackagesResult, notAuthResult, jGet, jGetD, bind,
            Except.bind, lookupField, formatVal]
          rfl
        · rcases ho with ho | ho <;> subst ho
          · refine ⟨"CRM request timed out — server may be unreachable", Or.inl ?_⟩
            simp [crmRequest, ht, handlePackagesResult, jGet, jGetD, bind,
              Except.bind, lookupField, formatVal]
            rfl
          · refine ⟨msg, Or.inl ?_⟩
            simp [crmRequest, ht, handlePackagesResult, jGet, jGetD, bind,
              Except.bind, lookupField, formatVal]
            rfl
  exact ⟨rfl, fun params st => main params st .timeout "" (Or.inl rfl),
    fun params st msg => main params st (.exc msg) msg (Or.inr rfl)⟩

theorem drainBatch_spec (xs : List (List Nat)) :
    xs = (drainBatch xs).1 ++
      (if (drainBatch xs).2.1 then [FLUSH_SENTINEL] else []) ++ (drainBatch xs).2.2 ∧
    ∀ b ∈ (drainBatch xs).1, b ≠ FLUSH_SENTINEL := by
  induction xs with
  | nil => simp [drainBatch]
  | cons x xs ih =>
    by_cases h : x = FLUSH_SENTINEL
    · simp [drainBatch, h]
    · simp only [drainBatch, if_neg h]
      refine ⟨?_, ?_⟩
      · nth_rewrite 1 [ih.1]
        simp
      · intro b hb
        rcases List.mem_cons.mp hb with rfl | hb
        · exact h
        · exact ih.2 b hb

theorem streamOfItems_append (a b : List (List Nat)) :
    streamOfItems (a ++ b) = streamOfItems a ++ streamOfItems b := by
  simp [streamOfItems]

theorem streamOfItems_no_sentinel (items : List (List Nat))
    (h : ∀ b ∈ items, b ≠ FLUSH_SENTINEL) :
    streamOfItems items = items.flatten.map StreamEv.byte := by
  induction items with
  | nil => simp [streamOfItems]
  | cons x xs ih =>
    have hx : x ≠ FLUSH_SENTINEL := h x (List.mem_cons_self x xs)
    simp only [streamOfItems, List.flatMap_cons, if_neg hx, List.flatten_cons, List.map_append]
    congr 1
    exact ih (fun b hb => h b (List.mem_cons_of_mem x hb))

theorem headD_append_tail_flatten (arrs : List (List (List Nat))) :
    arrs.headD [] ++ arrs.tail.flatten = arrs.flatten := by
  cases arrs <;> simp

theorem streamOfMsgs_cons (m : SendMsg) (ms : List SendMsg) :
    streamOfMsgs (m :: ms) =
      (match m with
        | .audio b => b.map StreamEv.byte
        | .speakEnd => [StreamEv.segmentEnd]) ++ streamOfMsgs ms := by
  simp [streamOfMsgs]

theorem streamOfItems_cons (b : List Nat) (items : List (List Nat)) :
    streamOfItems (b :: items) =
      (if b = FLUSH_SENTINEL then [StreamEv.segmentEnd] else b.map StreamEv.byte) ++
        streamOfItems items := by
  simp only [streamOfItems, List.flatMap_cons]

/-- C8: the send loop delivers the captured stream in order — the flattened
event stream of the outbound messages equals the canonical event stream of
everything that was queued, for every initial queue content and every
pattern of arrivals between iterations.  In particular the sentinel is never
part of an audio batch: it always surfaces as a standalone end-of-speech
message positioned after exactly the audio bytes queued before it. -/
theorem send_loop_preserves_order (pending : List (List Nat))
    (arrivals : List (List (List Nat))) :
    streamOfMsgs (runSendLoop pending arrivals) =
      streamOfItems (pending ++ arrivals.flatten) := by
  induction pending, arrivals using runSendLoop.induct with
  | case1 => simp [runSendLoop, streamOfMsgs, streamOfItems]
  | case2 c cs ih =>
    rw [runSendLoop]
    simpa using ih
  | case3 xs arrs ih =>
    have hrun : runSendLoop (FLUSH_SENTINEL :: xs) arrs =
        SendMsg.speakEnd :: runSendLoop (xs ++ arrs.headD []) arrs.tail := by
      rw [runSendLoop]
      simp
    rw [hrun, streamOfMsgs_cons, ih, List.append_assoc, headD_append_tail_flatten]
    simp [streamOfItems_cons]
  | case4 x xs arrs hx d ih =>
    have hd : d = drainBatch xs := rfl
    rw [hd] at ih
    obtain ⟨hsplit, hclean⟩ := drainBatch_spec xs
    rcases hdb : drainBatch xs with ⟨batch, found, rest⟩
    rw [hdb] at hsplit hclean ih
    have hrun : runSendLoop (x :: xs) arrs =
        SendMsg.audio (x ++ batch.flatten) ::
          (if found then
            SendMsg.speakEnd :: runSendLoop (rest ++ arrs.headD []) arrs.tail
          else runSendLoop (rest ++ arrs.headD []) arrs.tail) := by
      rw [runSendLoop]
      simp [hx, hdb]
    rw [hrun, List.cons_append, streamOfItems_cons, if_neg hx]
    conv_rhs => rw [hsplit]
    rw [streamOfItems_append, streamOfItems_append, streamOfItems_append,
      streamOfItems_no_sentinel batch hclean]
    have hsent : streamOfItems (if found then [FLUSH_SENTINEL] else []) =
        if found then [StreamEv.segmentEnd] else [] := by
      cases found <;> simp [streamOfItems]
    rw [hsent]
    rw [List.append_assoc, headD_append_tail_flatten] at ih
    by_cases hf : found = true
    · rw [if_pos hf, if_pos hf, streamOfMsgs_cons, streamOfMsgs_cons, ih,
        streamOfItems_append]
      simp [List.append_assoc]
    · rw [if_neg hf, if_neg hf, streamOfMsgs_cons, ih, streamOfItems_append]
      simp [List.append_assoc]

/-! ## Theorems: single-flight login -/

theorem loginRun_append {n : Nat} (oracle : Fin n → LoginOutcome) (cfg : LoginCfg n)
    (a b : List (Fin n × Nat)) :
    loginRun oracle cfg (a ++ b) = loginRun oracle (loginRun oracle cfg a) b := by
  induction a generalizing cfg with
  | nil => rfl
  | cons p rest ih =>
    simp only [List.cons_append, loginRun]
    exact ih _

theorem leaderToken_eq_some {n : Nat} (oracle : Fin n → LoginOutcome) (leader : Fin n)
    (l : String) :
    leaderToken oracle leader = some l ↔ oracle leader = .success l ∧ l ≠ "" := by
  unfold leaderToken
  rcases h : oracle leader with tok | _
  · by_cases ht : tok = ""
    · subst ht
      simp only [if_pos rfl]
      constructor
      · intro hc
        cases hc
      · rintro ⟨h1, h2⟩
        injection h1 with h1
        exact absurd h1.symm h2
    · simp only [if_neg ht]
      constructor
      · rintro hc
        injection hc with hc
        subst hc
        exact ⟨rfl, ht⟩
      · rintro ⟨h1, h2⟩
        injection h1 with h1
        rw [h1]
  · constructor
    · intro hc
      cases hc
    · rintro ⟨h1, h2⟩
      cases h1

theorem loginRun_entries {n : Nat} (oracle : Fin n → LoginOutcome)
    (todo : List (Fin n × Nat)) (cfg : LoginCfg n)
    (htok : cfg.accessToken = none)
    (hauth : cfg.isAuthenticating = true)
    (hentry : ∀ t ∈ todo.map Prod.fst, cfg.pcs t = .entry)
    (hnd : (todo.map Prod.fst).Nodup) :
    (loginRun oracle cfg todo).accessToken = none ∧
    (loginRun oracle cfg todo).tokenExpiresAt = cfg.tokenExpiresAt ∧
    (loginRun oracle cfg todo).isAuthenticating = true ∧
    (loginRun oracle cfg todo).netCalls = cfg.netCalls ∧
    (∀ t : Fin n, (loginRun oracle cfg todo).pcs t =
      if t ∈ todo.map Prod.fst then .polling POLL_COUNT else cfg.pcs t) := by
  induction todo generalizing cfg with
  | nil => simp [loginRun, htok, hauth]
  | cons p rest ih =>
    obtain ⟨tid, now⟩ := p
    simp only [List.map_cons, List.nodup_cons, List.mem_cons] at hentry hnd
    have hpc : cfg.pcs tid = .entry := hentry tid (Or.inl rfl)
    have hstep : loginStep oracle cfg tid now =
        { cfg with pcs := Function.update cfg.pcs tid (.polling POLL_COUNT) } := by
      unfold loginStep
      rw [hpc, hauth]
      simp
    have ihres := ih { cfg with pcs := Function.update cfg.pcs tid (.polling POLL_COUNT) }
      htok hauth
      (fun t htm => by
        have hne : t ≠ tid := fun he => hnd.1 (he ▸ htm)
        simp only [Function.update_noteq hne]
        exact hentry t (Or.inr htm))
      hnd.2
    rw [loginRun, hstep]
    refine ⟨ihres.1, ihres.2.1, ihres.2.2.1, ihres.2.2.2.1, ?_⟩
    intro t
    rw [ihres.2.2.2.2 t]
    by_cases htr : t ∈ rest.map Prod.fst
    · simp [htr, List.mem_cons]
    · by_cases hte : t = tid
      · subst hte
        simp [htr, Function.update_same]
      · simp only [if_neg htr, List.mem_cons]
        rw [Function.update_noteq hte]
        simp [hte, htr]

theorem loginInv_step {n : Nat} (oracle : Fin n → LoginOutcome) (leader : Fin n)
    (cfg : LoginCfg n) (tid : Fin n) (now : Nat)
    (h : LoginInv oracle leader cfg) :
    LoginInv oracle leader (loginStep oracle cfg tid now) := by
  obtain ⟨hnet, htok, hiff, hlead, hwait⟩ := h
  rcases hpc : cfg.pcs tid with _ | _ | k | r
  · exfalso
    by_cases hl : tid = leader
    · subst hl
      rcases hlead with h1 | ⟨r, h1⟩ <;> rw [hpc] at h1 <;> cases h1
    · rcases hwait tid hl with ⟨k, h1⟩ | h1 | ⟨l, _, h1⟩ <;> rw [hpc] at h1 <;> cases h1
  · have hl : tid = leader := by
      by_contra hne
      rcases hwait tid hne with ⟨k, h1⟩ | h1 | ⟨l, _, h1⟩ <;> rw [hpc] at h1 <;> cases h1
    subst hl
    simp only [loginStep, hpc]
    rcases horc : oracle tid with tok | _ <;> dsimp only
    · by_cases htk : tok = ""
      · rw [if_pos htk]
        refine ⟨hnet, htok, by simp [Function.update_same],
          Or.inr ⟨.loginFailed, Function.update_same _ _ _⟩, ?_⟩
        intro t ht
        dsimp only
        rw [Function.update_noteq ht]
        exact hwait t ht
      · rw [if_neg htk]
        refine ⟨hnet,
          Or.inr ⟨tok, (leaderToken_eq_some oracle tid tok).mpr ⟨horc, htk⟩, rfl⟩,
          by simp [Function.update_same],
          Or.inr ⟨.ok tok, Function.update_same _ _ _⟩, ?_⟩
        intro t ht
        dsimp only
        rw [Function.update_noteq ht]
        exact hwait t ht
    · refine ⟨hnet, htok, by simp [Function.update_same],
        Or.inr ⟨.loginFailed, Function.update_same _ _ _⟩, ?_⟩
      intro t ht
      dsimp only
      rw [Function.update_noteq ht]
      exact hwait t ht
  · have hne : tid ≠ leader := by
      intro he
      subst he
      rcases hlead with h1 | ⟨r, h1⟩ <;> rw [hpc] at h1 <;> cases h1
    simp only [loginStep, hpc]
    by_cases hv : loginTokenValid cfg now
    · rw [if_pos hv]
      have hsome : ∃ l, leaderToken oracle leader = some l ∧ cfg.accessToken = some l := by
        rcases htok with hnone | hx
        · exfalso
          rw [loginTokenValid, hnone] at hv
          cases hv
        · exact hx
      obtain ⟨l, hl1, hl2⟩ := hsome
      refine ⟨hnet, Or.inr ⟨l, hl1, hl2⟩, ?_, ?_, ?_⟩
      · dsimp only
        rw [Function.update_noteq (Ne.symm hne)]
        exact hiff
      · rcases hlead with h1 | ⟨r, h1⟩
        · exact Or.inl (by dsimp only; rw [Function.update_noteq (Ne.symm hne)]; exact h1)
        · exact Or.inr ⟨r, by dsimp only; rw [Function.update_noteq (Ne.symm hne)]; exact h1⟩
      · intro t ht
        by_cases hte : t = tid
        · subst hte
          right
          right
          refine ⟨l, hl1, ?_⟩
          dsimp only
          rw [Function.update_same, hl2]
          rfl
        · dsimp only
          rw [Function.update_noteq hte]
          exact hwait t ht
    · rw [if_neg hv]
      by_cases hk : k ≤ 1
      · rw [if_pos hk]
        refine ⟨hnet, htok, ?_, ?_, ?_⟩
        · dsimp only
          rw [Function.update_noteq (Ne.symm hne)]
          exact hiff
        · rcases hlead with h1 | ⟨r, h1⟩
          · exact Or.inl (by dsimp only; rw [Function.update_noteq (Ne.symm hne)]; exact h1)
          · exact Or.inr ⟨r, by dsimp only; rw [Function.update_noteq (Ne.symm hne)]; exact h1⟩
        · intro t ht
          by_cases hte : t = tid
          · subst hte
            exact Or.inr (Or.inl (Function.update_same _ _ _))
          · dsimp only
            rw [Function.update_noteq hte]
            exact hwait t ht
      · rw [if_neg hk]
        refine ⟨hnet, htok, ?_, ?_, ?_⟩
        · dsimp only
          rw [Function.update_noteq (Ne.symm hne)]
          exact hiff
        · rcases hlead with h1 | ⟨r, h1⟩
          · exact Or.inl (by dsimp only; rw [Function.update_noteq (Ne.symm hne)]; exact h1)
          · exact Or.inr ⟨r, by dsimp only; rw [Function.update_noteq (Ne.symm hne)]; exact h1⟩
        · intro t ht
          by_cases hte : t = tid
          · subst hte
            exact Or.inl ⟨k - 1, Function.update_same _ _ _⟩
          · dsimp only
            rw [Function.update_noteq hte]
            exact hwait t ht
  · simp only [loginStep, hpc]
    exact ⟨hnet, htok, hiff, hlead, hwait⟩

theorem loginInv_run {n : Nat} (oracle : Fin n → LoginOutcome) (leader : Fin n)
    (cfg : LoginCfg n) (sched : List (Fin n × Nat))
    (h : LoginInv oracle leader cfg) :
    LoginInv oracle leader (loginRun oracle cfg sched) := by
  induction sched generalizing cfg with
  | nil => exact h
  | cons p rest ih => exact ih _ (loginInv_step oracle leader cfg p.1 p.2 h)

theorem loginStep_first {n : Nat} (oracle : Fin n → LoginOutcome) (leader : Fin n) (t0 : Nat) :
    loginStep oracle (loginInit n) leader t0 =
      ⟨none, 0, true, 1, Function.update (fun _ => TaskPC.entry) leader .awaitingNet⟩ := by
  simp [loginStep, loginInit]

theorem loginInv_mid {n : Nat} (oracle : Fin n → LoginOutcome) (leader : Fin n) (t0 : Nat)
    (rest : List (Fin n × Nat))
    (hnd : (((leader, t0) :: rest).map Prod.fst).Nodup)
    (hall : ∀ t : Fin n, t ∈ ((leader, t0) :: rest).map Prod.fst) :
    LoginInv oracle leader (loginRun oracle (loginInit n) ((leader, t0) :: rest)) := by
  simp only [List.map_cons, List.nodup_cons] at hnd
  have hrun : loginRun oracle (loginInit n) ((leader, t0) :: rest) =
      loginRun oracle
        ⟨none, 0, true, 1, Function.update (fun _ => TaskPC.entry) leader .awaitingNet⟩ rest := by
    rw [loginRun, loginStep_first]
  rw [hrun]
  have hres := loginRun_entries oracle rest
    ⟨none, 0, true, 1, Function.update (fun _ => TaskPC.entry) leader .awaitingNet⟩
    rfl rfl
    (fun t htm => by
      have hne : t ≠ leader := fun he => hnd.1 (he ▸ htm)
      show Function.update (fun _ => TaskPC.entry) leader TaskPC.awaitingNet t = TaskPC.entry
      rw [Function.update_noteq hne])
    hnd.2
  obtain ⟨h1, h2, h3, h4, h5⟩ := hres
  have hld : (loginRun oracle
      ⟨none, 0, true, 1, Function.update (fun _ => TaskPC.entry) leader .awaitingNet⟩
      rest).pcs leader = TaskPC.awaitingNet := by
    rw [h5 leader, if_neg (fun hm => hnd.1 hm)]
    show Function.update (fun _ => TaskPC.entry) leader TaskPC.awaitingNet leader = _
    rw [Function.update_same]
  refine ⟨h4, Or.inl h1, ?_, Or.inl hld, ?_⟩
  · rw [h3, hld]
    simp
  · intro t ht
    left
    refine ⟨POLL_COUNT, ?_⟩
    rw [h5 t]
    have htm : t ∈ rest.map Prod.fst := by
      have h := hall t
      simp only [List.map_cons, List.mem_cons] at h
      rcases h with he | hm
      · exact absurd he ht
      · exact hm
    rw [if_pos htm]

theorem login_prefix_phase1 {n : Nat} (oracle : Fin n → LoginOutcome) (leader : Fin n)
    (t0 : Nat) (rest p : List (Fin n × Nat))
    (hnd : (((leader, t0) :: rest).map Prod.fst).Nodup)
    (hp : p <+: (leader, t0) :: rest) :
    (loginRun oracle (loginInit n) p).netCalls ≤ 1 ∧
    ∀ t : Fin n, t ≠ leader → (loginRun oracle (loginInit n) p).pcs t ≠ .awaitingNet := by
  simp only [List.map_cons, List.nodup_cons] at hnd
  rcases p with _ | ⟨q, p'⟩
  · constructor
    · simp [loginRun, loginInit]
    · intro t ht
      simp [loginRun, loginInit]
  · have hq : q = (leader, t0) ∧ p' <+: rest := by
      rcases hp with ⟨s, hs⟩
      rw [List.cons_append] at hs
      injection hs with hh1 hh2
      exact ⟨hh1, ⟨s, hh2⟩⟩
    obtain ⟨rfl, hp'⟩ := hq
    have hrun : loginRun oracle (loginInit n) ((leader, t0) :: p') =
        loginRun oracle
          ⟨none, 0, true, 1, Function.update (fun _ => TaskPC.entry) leader .awaitingNet⟩ p' := by
      rw [loginRun, loginStep_first]
    rw [hrun]
    have hsub : p'.map Prod.fst <+: rest.map Prod.fst := hp'.map Prod.fst
    have hres := loginRun_entries oracle p'
      ⟨none, 0, true, 1, Function.update (fun _ => TaskPC.entry) leader .awaitingNet⟩
      rfl rfl
      (fun t htm => by
        have htm' : t ∈ rest.map Prod.fst := hsub.subset htm
        have hne : t ≠ leader := fun he => hnd.1 (he ▸ htm')
        show Function.update (fun _ => TaskPC.entry) leader TaskPC.awaitingNet t = TaskPC.entry
        rw [Function.update_noteq hne])
      (hnd.2.sublist hsub.sublist)
    obtain ⟨h1, h2, h3, h4, h5⟩ := hres
    constructor
    · simp [h4]
    · intro t ht
      rw [h5 t]
      by_cases htm : t ∈ p'.map Prod.fst
      · rw [if_pos htm]
        intro hc
        cases hc
      · rw [if_neg htm]
        show Function.update (fun _ => TaskPC.entry) leader TaskPC.awaitingNet t ≠ _
        rw [Function.update_noteq ht]
        intro hc
        cases hc

theorem prefix_append_cases {α : Type} (s1 : List α) (p s2 : List α) (h : p <+: s1 ++ s2) :
    p <+: s1 ∨ ∃ q, p = s1 ++ q ∧ q <+: s2 := by
  induction s1 generalizing p with
  | nil => exact Or.inr ⟨p, rfl, h⟩
  | cons a s1 ih =>
    rcases p with _ | ⟨b, p'⟩
    · exact Or.inl List.nil_prefix
    · rw [List.cons_append] at h
      rcases List.cons_prefix_cons.mp h with ⟨rfl, h'⟩
      rcases ih p' h' with h1 | ⟨q, rfl, hq⟩
      · exact Or.inl (List.cons_prefix_cons.mpr ⟨rfl, h1⟩)
      · exact Or.inr ⟨q, rfl, hq⟩

/-- C2: under cooperative scheduling, for any number of tasks entering
`_login` from a state with no cached token, scheduled so that every task
executes its entry block before anything else runs (the concurrent-callers
scenario), exactly one network login call is ever performed — the first
scheduled caller; at every point of every continuation no other task is ever
inside the network round trip and the call count stays at most one; and
every other caller that terminates either timed out after its bounded 50
polls or returned exactly the (non-empty) token the leader's round trip
produced and cached. -/
theorem login_single_flight {n : Nat} (oracle : Fin n → LoginOutcome)
    (s1 s2 : List (Fin n × Nat)) (leader : Fin n)
    (hnd : (s1.map Prod.fst).Nodup)
    (hall : ∀ t : Fin n, t ∈ s1.map Prod.fst)
    (hleader : (s1.map Prod.fst).head? = some leader) :
    (loginRun oracle (loginInit n) (s1 ++ s2)).netCalls = 1 ∧
    (∀ p, p <+: s1 ++ s2 →
      (loginRun oracle (loginInit n) p).netCalls ≤ 1 ∧
      ∀ t : Fin n, t ≠ leader → (loginRun oracle (loginInit n) p).pcs t ≠ .awaitingNet) ∧
    (∀ t : Fin n, t ≠ leader → ∀ r,
      (loginRun oracle (loginInit n) (s1 ++ s2)).pcs t = .done r →
      r = .authTimeout ∨ ∃ tok, tok ≠ "" ∧ oracle leader = .success tok ∧ r = .ok tok) := by
  rcases s1 with _ | ⟨⟨a, t0⟩, rest⟩
  · exfalso
    simp at hleader
  · have ha : a = leader := by
      simp only [List.map_cons, List.head?_cons, Option.some.injEq] at hleader
      exact hleader
    subst ha
    have hmid := loginInv_mid oracle a t0 rest hnd hall
    have hfin : LoginInv oracle a (loginRun oracle (loginInit n) (((a, t0) :: rest) ++ s2)) := by
      rw [loginRun_append]
      exact loginInv_run oracle a _ s2 hmid
    obtain ⟨hnet, htokinv, hiff, hlead, hwait⟩ := hfin
    refine ⟨hnet, ?_, ?_⟩
    · intro p hp
      rcases prefix_append_cases ((a, t0) :: rest) p s2 hp with h1 | ⟨q, rfl, hq⟩
      · exact login_prefix_phase1 oracle a t0 rest p hnd h1
      · rw [loginRun_append]
        obtain ⟨hnet', _, _, _, hwait'⟩ := loginInv_run oracle a _ q hmid
        refine ⟨le_of_eq hnet', ?_⟩
        intro t ht
        rcases hwait' t ht with ⟨k, hk⟩ | hk | ⟨l, _, hk⟩ <;> rw [hk] <;>
          intro hc <;> cases hc
    · intro t ht r hr
      rcases hwait t ht with ⟨k, hk⟩ | hk | ⟨l, hl, hk⟩
      · rw [hr] at hk
        cases hk
      · rw [hr] at hk
        injection hk with hk
        exact Or.inl hk
      · rw [hr] at hk
        injection hk with hk
        obtain ⟨ho, hne⟩ := (leaderToken_eq_some oracle a l).mp hl
        exact Or.inr ⟨l, hne, ho, hk⟩

/-- Witness for C2: two concurrent tasks, entry blocks first, leader's round
trip succeeds with token `"tok"` — the whole run performs exactly one
network login call. -/
theorem login_single_flight_witness :
    (loginRun (fun _ : Fin 2 => LoginOutcome.success "tok") (loginInit 2)
      ([((0 : Fin 2), 0), ((1 : Fin 2), 0)] ++
        [((0 : Fin 2), 5), ((1 : Fin 2), 6), ((1 : Fin 2), 7)])).netCalls = 1 :=
  (login_single_flight (fun _ => LoginOutcome.success "tok")
    [((0 : Fin 2), 0), ((1 : Fin 2), 0)] [((0 : Fin 2), 5), ((1 : Fin 2), 6), ((1 : Fin 2), 7)]
    0 (by decide) (by decide) (by decide)).1
